import Mathlib

/-!
Verification of the agentic-security agent core.

Shallow embedding of the tool-using agent in `Phoenix/utils.py` and of the
dependency-install step of `benchmark-evals/orbital_eval/evaluate_custom.py`.

External effects (the OpenAI chat endpoint, `json.loads`, the parquet/duckdb
pipeline inside `lookup_sales_data`) are passed in as explicit function
parameters: a model run is a script (finite list) of model responses, JSON
parsing is a partial function on the raw argument string, and a tool body's
interaction with the outside world is an `Except`-valued outcome.  Everything
the Python control flow decides on (tool-call lists, registry lookup,
truthiness of strings, span open/close order) is translated directly from the
source.
-/

namespace AgenticSecurity

/-- A model-issued tool call (OpenAI `tool_call` object): identifier, tool
name, raw JSON argument string.  Mirrors `tool_call.id`,
`tool_call.function.name`, `tool_call.function.arguments` in
`Phoenix/utils.py`. -/
structure ToolCall where
  id : String
  name : String
  arguments : String
deriving DecidableEq, Repr

/-- One entry of the conversation list in `Phoenix/utils.py`: the dicts
appended for user/system/tool messages and the assistant message object are
unified into one record.  `tool_calls` is `[]` for non-assistant messages and
`tool_call_id` is `none` except on tool-result messages. -/
structure Message where
  role : String
  content : Option String
  tool_calls : List ToolCall := []
  tool_call_id : Option String := none
deriving DecidableEq, Repr

/-- One model response, `response.choices[0].message` in `run_agent`:
text content (possibly null) and the list of requested tool calls
(`None` and `[]` are both modelled as `[]`, matching Python falsiness of
`if tool_calls:`). -/
structure ModelResponse where
  content : Option String
  tool_calls : List ToolCall
deriving DecidableEq, Repr

/-- The structured key→value payload `json.loads` produces from a tool call's
argument string and that is splatted into the tool implementation. -/
abbrev Args := List (String × String)

/-- The constant `SYSTEM_PROMPT` from `Phoenix/utils.py` (a triple-quoted string with a
leading and trailing newline). -/
def SYSTEM_PROMPT : String :=
  "\nYou are a helpful assistant that can answer questions about the Store Sales Price Elasticity Promotions dataset.\n"

/-- The user message built by `run_agent` for a bare-string input:
`{"role": "user", "content": messages}`. -/
def userMessage (s : String) : Message :=
  { role := "user", content := some s }

/-- The system message `run_agent` appends when none is present:
`{"role": "system", "content": SYSTEM_PROMPT}`. -/
def systemMessage : Message :=
  { role := "system", content := some SYSTEM_PROMPT }

/-- The tool-result message appended by `handle_tool_calls`:
`{"role": "tool", "content": result, "tool_call_id": tool_call.id}`. -/
def toolMessage (tc : ToolCall) (result : String) : Message :=
  { role := "tool", content := some result, tool_call_id := some tc.id }

/-- The assistant message `run_agent` appends verbatim
(`messages.append(response.choices[0].message)`). -/
def assistantMessage (r : ModelResponse) : Message :=
  { role := "assistant", content := r.content, tool_calls := r.tool_calls }

/-- Input normalization at the top of `run_agent` (utils.py lines 207-211):
a bare string becomes a single user message, and if no message has role
`system` a system message is appended (at the end, via `messages.append`). -/
def normalizeInput : String ⊕ List Message → List Message
  | .inl s =>
    let messages := [userMessage s]
    if messages.any (fun m => m.role == "system") then messages
    else messages ++ [systemMessage]
  | .inr messages =>
    if messages.any (fun m => m.role == "system") then messages
    else messages ++ [systemMessage]

/-- Number of system-role messages in a conversation. -/
def countSystem (messages : List Message) : Nat :=
  (messages.filter (fun m => m.role == "system")).length

/-! ## Individual tools -/

/-- The tool `lookup_sales_data` (utils.py lines 51-65).  The body — reading the
parquet file, creating the duckdb table, generating and executing SQL — is
abstracted as an `Except String String` outcome: `.ok r` is the
`result.to_string()` of a successful pipeline, `.error e` means some internal
step raised an exception with message `e`.  The `try/except` converts the
exception into the string `f"Error accessing data: {str(e)}"`. -/
def lookup_sales_data (internal : Except String String) : String :=
  match internal with
  | .ok result => result
  | .error e => "Error accessing data: " ++ e

/-- The tool `analyze_sales_data` (utils.py lines 72-80).  The model call is abstracted
as its returned message content (`None` modelled as `none`).  The return is
`analysis if analysis else "No analysis could be generated"`, where a Python
string is falsy exactly when it is `None` or empty. -/
def analyze_sales_data (content : Option String) : String :=
  match content with
  | none => "No analysis could be generated"
  | some s => if s = "" then "No analysis could be generated" else s

/-- The pydantic `VisualizationConfig` model (utils.py lines 87-91). -/
structure VisualizationConfig where
  chart_type : String
  x_axis : String
  y_axis : String
  title : String
deriving DecidableEq, Repr

/-- The dictionary `extract_chart_config` actually returns: the four
`VisualizationConfig` fields plus a fifth key `data`. -/
structure ChartConfig where
  chart_type : String
  x_axis : String
  y_axis : String
  title : String
  data : String
deriving DecidableEq, Repr

/-- The function `extract_chart_config` (utils.py lines 93-117).  The structured-output
call is abstracted by `parsed`: `some content` when the response content
coerces to a `VisualizationConfig` whose fields the `try` block can read,
`none` when that access raises and the `except` block runs.  Both branches
return a dictionary carrying the chart fields plus `"data": data`. -/
def extract_chart_config (data : String) (visualization_goal : String)
    (parsed : Option VisualizationConfig) : ChartConfig :=
  match parsed with
  | some content =>
    { chart_type := content.chart_type
      x_axis := content.x_axis
      y_axis := content.y_axis
      title := content.title
      data := data }
  | none =>
    { chart_type := "line"
      x_axis := "date"
      y_axis := "value"
      title := visualization_goal
      data := data }

/-! ## Benchmark harness dependency install -/

/-- The three install commands of `evaluate_custom.py` lines 22-27. -/
inductive InstallCmd where
  /-- Command `pip install -r requirements.txt`. -/
  | pipRequirements
  /-- Command `pip install -e .`. -/
  | pipSetupEditable
  /-- Command `pip install .`. -/
  | pipPyproject
deriving DecidableEq, Repr

/-- Which of the three probe files exist in the checked-out repository. -/
structure RepoState where
  hasRequirementsTxt : Bool
  hasSetupPy : Bool
  hasPyprojectToml : Bool
deriving DecidableEq, Repr

/-- The dependency-install step of `evaluate_custom.py` (lines 22-27): an
`if/elif/elif` chain probing `requirements.txt`, then `setup.py`, then
`pyproject.toml`; the list of install commands that run. -/
def installCommands (repo : RepoState) : List InstallCmd :=
  if repo.hasRequirementsTxt then [InstallCmd.pipRequirements]
  else if repo.hasSetupPy then [InstallCmd.pipSetupEditable]
  else if repo.hasPyprojectToml then [InstallCmd.pipPyproject]
  else []

/-- Spec-side definition, for the refinement claim only, following the spec's
words: the install command that runs is "the one for the first of the three
files that exists", probing in the priority order requirements.txt, setup.py,
pyproject.toml. -/
def specFirstInstall (repo : RepoState) : List InstallCmd :=
  match List.find? Prod.fst
      [(repo.hasRequirementsTxt, InstallCmd.pipRequirements),
       (repo.hasSetupPy, InstallCmd.pipSetupEditable),
       (repo.hasPyprojectToml, InstallCmd.pipPyproject)] with
  | some p => [p.2]
  | none => []

/-! ## Tool dispatch and the agent loop -/

/-- The exceptions that escape `handle_tool_calls` (utils.py lines 194-201):
the `KeyError` from `tool_implementations[tool_call.function.name]`, the
`json.loads` failure on `tool_call.function.arguments`, and an exception
raised by the tool body itself. -/
inductive DispatchError where
  | unknownTool (name : String)
  | badArgs (raw : String)
  | toolRaised (msg : String)
deriving DecidableEq, Repr

/-- The function `handle_tool_calls` (utils.py lines 194-201).  `impls` is the
`tool_implementations` dict (`none` = name absent, so the subscript raises
`KeyError`); `parse` is `json.loads` on the raw argument string (`none` =
parse error).  Python mutates `messages` in place, so when a dispatch raises,
the caller's list keeps everything appended before the failing call: the
`.error` branch therefore carries the conversation as it stood when the
exception was raised. -/
def handleToolCalls (impls : String → Option (Args → Except String String))
    (parse : String → Option Args) :
    List ToolCall → List Message → Except (DispatchError × List Message) (List Message)
  | [], messages => .ok messages
  | tc :: rest, messages =>
    match impls tc.name with
    | none => .error (DispatchError.unknownTool tc.name, messages)
    | some f =>
      match parse tc.arguments with
      | none => .error (DispatchError.badArgs tc.arguments, messages)
      | some args =>
        match f args with
        | .error e => .error (DispatchError.toolRaised e, messages)
        | .ok result =>
          handleToolCalls impls parse rest (messages ++ [toolMessage tc result])

/-- Observable events on the `router_call` spans of `run_agent`, indexed by
the loop iteration that opened the span.  `openSpan`/`closeSpan` are the
context-manager enter/exit of `tracer.start_as_current_span`;
`setInput`, `setStatusOk` and `setOutput` are the corresponding method calls
in the loop body. -/
inductive SpanEvent where
  | openSpan (iter : Nat)
  | setInput (iter : Nat)
  | setStatusOk (iter : Nat)
  | closeSpan (iter : Nat)
  | setOutput (iter : Nat)
deriving DecidableEq, Repr

/-- The iteration index a span event belongs to. -/
def SpanEvent.iter : SpanEvent → Nat
  | .openSpan i => i
  | .setInput i => i
  | .setStatusOk i => i
  | .closeSpan i => i
  | .setOutput i => i

/-- How one invocation of the `while True:` loop in `run_agent` ends:
`answer` is the `return` of the final response's content, `dispatchError` is
an exception from `handle_tool_calls` propagating out, and `outOfScript`
means the scripted model responses ran out with the loop still going (the
fuel view of non-termination).  Each constructor carries the conversation at
that point. -/
inductive RunResult where
  | answer (content : Option String) (messages : List Message)
  | dispatchError (err : DispatchError) (messages : List Message)
  | outOfScript (messages : List Message)
deriving DecidableEq, Repr

/-- The `while True:` loop of `run_agent` (utils.py lines 212-228), driven by
a script of model responses, together with the trace of `router_call` span
events it emits.  `i` numbers the iteration.  Each iteration: open the span,
set its input, issue the model call (take the next scripted response), append
the assistant message, set status OK, and leave the `with` block — which
closes the span.  Only then (lines 223-227 are outside the `with` block) does
the code branch on `if tool_calls:` and call `span.set_output`; on the
tool-call branch `handle_tool_calls` runs before `set_output`, so a dispatch
exception propagates without `set_output` ever running for that span. -/
def run_agent_loop (impls : String → Option (Args → Except String String))
    (parse : String → Option Args) :
    Nat → List ModelResponse → List Message → RunResult × List SpanEvent
  | _, [], messages => (RunResult.outOfScript messages, [])
  | i, r :: script, messages =>
    let spanBody := [SpanEvent.openSpan i, SpanEvent.setInput i,
                     SpanEvent.setStatusOk i, SpanEvent.closeSpan i]
    let messages' := messages ++ [assistantMessage r]
    if r.tool_calls = [] then
      (RunResult.answer r.content messages', spanBody ++ [SpanEvent.setOutput i])
    else
      match handleToolCalls impls parse r.tool_calls messages' with
      | .error (e, ms) => (RunResult.dispatchError e ms, spanBody)
      | .ok messages'' =>
        let rec' := run_agent_loop impls parse (i + 1) script messages''
        (rec'.1, spanBody ++ [SpanEvent.setOutput i] ++ rec'.2)

/-- The function `run_agent` (utils.py lines 207-228): input normalization followed by the
loop. -/
def run_agent (impls : String → Option (Args → Except String String))
    (parse : String → Option Args) (script : List ModelResponse)
    (input : String ⊕ List Message) : RunResult × List SpanEvent :=
  run_agent_loop impls parse 0 script (normalizeInput input)

/-- The correlation identifiers of the tool-result messages of a
conversation, in order. -/
def resultIds (messages : List Message) : List String :=
  messages.flatMap (fun m => if m.role = "tool" then m.tool_call_id.toList else [])

/-- The identifiers of all assistant-issued tool-call requests of a
conversation, in order. -/
def issuedIds (messages : List Message) : List String :=
  messages.flatMap (fun m => if m.role = "assistant" then m.tool_calls.map ToolCall.id else [])

/-- The `tool_implementations` dict of utils.py lines 188-192, with each
tool body's external interaction abstracted: `lookupInternal` is the
parquet/duckdb/SQL pipeline inside `lookup_sales_data` (which may raise),
`analysisContent` is the model content seen by `analyze_sales_data`, and
`vizCode` is the code text produced by `generate_visualization`'s two model
calls.  Any other name is absent (`none`, the `KeyError` case). -/
def tool_implementations (lookupInternal : Args → Except String String)
    (analysisContent : Args → Option String) (vizCode : Args → String) :
    String → Option (Args → Except String String) :=
  fun name =>
    if name = "lookup_sales_data" then
      some (fun a => .ok (lookup_sales_data (lookupInternal a)))
    else if name = "analyze_sales_data" then
      some (fun a => .ok (analyze_sales_data (analysisContent a)))
    else if name = "generate_visualization" then
      some (fun a => .ok (vizCode a))
    else none

lemma resultIds_append (l₁ l₂ : List Message) :
    resultIds (l₁ ++ l₂) = resultIds l₁ ++ resultIds l₂ :=
  List.flatMap_append l₁ l₂ _

lemma issuedIds_append (l₁ l₂ : List Message) :
    issuedIds (l₁ ++ l₂) = issuedIds l₁ ++ issuedIds l₂ :=
  List.flatMap_append l₁ l₂ _

lemma resultIds_assistant (r : ModelResponse) :
    resultIds [assistantMessage r] = [] := by
  simp [resultIds, assistantMessage]

lemma issuedIds_assistant (r : ModelResponse) :
    issuedIds [assistantMessage r] = r.tool_calls.map ToolCall.id := by
  simp [issuedIds, assistantMessage]

lemma resultIds_tool (tc : ToolCall) (out : String) :
    resultIds [toolMessage tc out] = [tc.id] := by
  simp [resultIds, toolMessage]

lemma issuedIds_tool (tc : ToolCall) (out : String) :
    issuedIds [toolMessage tc out] = [] := by
  simp [issuedIds, toolMessage]

/-- Dispatch of a single tool call can complete: the name resolves in the
registry, the argument payload parses, and the tool body returns without
raising. -/
def dispatchOk (impls : String → Option (Args → Except String String))
    (parse : String → Option Args) (tc : ToolCall) : Prop :=
  ∃ f, impls tc.name = some f ∧
    ∃ args, parse tc.arguments = some args ∧ ∃ out, f args = .ok out

/-- Successful dispatch appends exactly one tool message per call, in the
order the calls were issued, each carrying the originating call's id. -/
lemma handleToolCalls_ok_shape (impls : String → Option (Args → Except String String))
    (parse : String → Option Args) :
    ∀ (calls : List ToolCall) (messages messages' : List Message),
      handleToolCalls impls parse calls messages = .ok messages' →
      ∃ outs : List String, outs.length = calls.length ∧
        messages' = messages ++ (calls.zip outs).map (fun p => toolMessage p.1 p.2) := by
  intro calls
  induction calls with
  | nil =>
    intro messages messages' h
    simp only [handleToolCalls] at h
    exact ⟨[], rfl, by simpa using h.symm⟩
  | cons tc rest ih =>
    intro messages messages' h
    simp only [handleToolCalls] at h
    cases himpl : impls tc.name with
    | none => simp only [himpl] at h; exact absurd h (by simp)
    | some f =>
      simp only [himpl] at h
      cases hparse : parse tc.arguments with
      | none => simp only [hparse] at h; exact absurd h (by simp)
      | some args =>
        simp only [hparse] at h
        cases hrun : f args with
        | error e => simp only [hrun] at h; exact absurd h (by simp)
        | ok result =>
          simp only [hrun] at h
          obtain ⟨outs, hlen, hmsgs⟩ := ih (messages ++ [toolMessage tc result]) messages' h
          refine ⟨result :: outs, by simpa using hlen, ?_⟩
          simp [hmsgs, List.append_assoc]

/-- Successful dispatch extends the tool-result identifiers by exactly the
ids of the dispatched calls, in order, and issues no new tool-call
requests. -/
lemma handleToolCalls_ok_ids (impls : String → Option (Args → Except String String))
    (parse : String → Option Args) :
    ∀ (calls : List ToolCall) (messages messages' : List Message),
      handleToolCalls impls parse calls messages = .ok messages' →
      resultIds messages' = resultIds messages ++ calls.map ToolCall.id ∧
      issuedIds messages' = issuedIds messages := by
  intro calls
  induction calls with
  | nil =>
    intro messages messages' h
    simp only [handleToolCalls] at h
    simp [← Except.ok.injEq messages messages' |>.mp h]
  | cons tc rest ih =>
    intro messages messages' h
    simp only [handleToolCalls] at h
    cases himpl : impls tc.name with
    | none => simp only [himpl] at h; exact absurd h (by simp)
    | some f =>
      simp only [himpl] at h
      cases hparse : parse tc.arguments with
      | none => simp only [hparse] at h; exact absurd h (by simp)
      | some args =>
        simp only [hparse] at h
        cases hrun : f args with
        | error e => simp only [hrun] at h; exact absurd h (by simp)
        | ok result =>
          simp only [hrun] at h
          obtain ⟨hres, hiss⟩ := ih (messages ++ [toolMessage tc result]) messages' h
          constructor
          · rw [hres, resultIds, List.flatMap_append]
            simp [resultIds, toolMessage, List.append_assoc]
          · rw [hiss, issuedIds, List.flatMap_append]
            simp [issuedIds, toolMessage]

/-- If every call in the batch can dispatch, `handle_tool_calls` returns
normally. -/
lemma handleToolCalls_ok_of_forall (impls : String → Option (Args → Except String String))
    (parse : String → Option Args) :
    ∀ (calls : List ToolCall) (messages : List Message),
      (∀ tc ∈ calls, dispatchOk impls parse tc) →
      ∃ messages', handleToolCalls impls parse calls messages = .ok messages' := by
  intro calls
  induction calls with
  | nil => intro messages _; exact ⟨messages, rfl⟩
  | cons tc rest ih =>
    intro messages hall
    obtain ⟨f, hf, args, hargs, out, hout⟩ := hall tc (by simp)
    obtain ⟨messages', hrest⟩ :=
      ih (messages ++ [toolMessage tc out]) (fun c hc => hall c (by simp [hc]))
    exact ⟨messages', by simp only [handleToolCalls, hf, hargs, hout]; exact hrest⟩

/-- If every scripted response carries at least one tool call, the loop never
reaches its `return`: no run produces an `answer`. -/
lemma run_agent_loop_no_answer (impls : String → Option (Args → Except String String))
    (parse : String → Option Args) :
    ∀ (script : List ModelResponse) (i : Nat) (messages : List Message),
      (∀ r ∈ script, r.tool_calls ≠ []) →
      ∀ c final, (run_agent_loop impls parse i script messages).1 ≠ RunResult.answer c final := by
  intro script
  induction script with
  | nil =>
    intro i messages _ c final h
    simp [run_agent_loop] at h
  | cons r rest ih =>
    intro i messages hall c final h
    have hr : ¬ r.tool_calls = [] := hall r (by simp)
    simp only [run_agent_loop, if_neg hr] at h
    cases hh : handleToolCalls impls parse r.tool_calls (messages ++ [assistantMessage r]) with
    | error em =>
      obtain ⟨e, ms⟩ := em
      simp only [hh] at h
      exact absurd h (by simp)
    | ok messages'' =>
      simp only [hh] at h
      exact ih (i + 1) messages'' (fun p hp => hall p (by simp [hp])) c final h

/-- If every response before `r` carries tool calls that all dispatch
successfully and `r` has none, the loop stops at `r` and returns its
content. -/
lemma run_agent_loop_answer_first (impls : String → Option (Args → Except String String))
    (parse : String → Option Args) :
    ∀ (pre : List ModelResponse) (r : ModelResponse) (rest : List ModelResponse)
      (i : Nat) (messages : List Message),
      (∀ p ∈ pre, p.tool_calls ≠ []) →
      (∀ p ∈ pre, ∀ tc ∈ p.tool_calls, dispatchOk impls parse tc) →
      r.tool_calls = [] →
      ∃ final, (run_agent_loop impls parse i (pre ++ r :: rest) messages).1
        = RunResult.answer r.content final := by
  intro pre
  induction pre with
  | nil =>
    intro r rest i messages _ _ hr
    exact ⟨messages ++ [assistantMessage r], by simp [run_agent_loop, hr]⟩
  | cons p pre' ih =>
    intro r rest i messages hne hok hr
    have hp : ¬ p.tool_calls = [] := hne p (by simp)
    obtain ⟨messages'', hh⟩ := handleToolCalls_ok_of_forall impls parse p.tool_calls
      (messages ++ [assistantMessage p]) (hok p (by simp))
    obtain ⟨final, hfinal⟩ := ih r rest (i + 1) messages''
      (fun q hq => hne q (by simp [hq])) (fun q hq => hok q (by simp [hq])) hr
    refine ⟨final, ?_⟩
    simp only [List.cons_append, run_agent_loop, if_neg hp, hh]
    exact hfinal

/-- The correlation invariant is preserved by complete runs: if the starting
conversation's tool-result ids already equal its issued tool-call ids (in
particular if it has no assistant or tool messages yet), a run ending in an
`answer` ends with the two id sequences equal. -/
lemma run_agent_loop_ids (impls : String → Option (Args → Except String String))
    (parse : String → Option Args) :
    ∀ (script : List ModelResponse) (i : Nat) (messages : List Message)
      (c : Option String) (final : List Message),
      resultIds messages = issuedIds messages →
      (run_agent_loop impls parse i script messages).1 = RunResult.answer c final →
      resultIds final = issuedIds final := by
  intro script
  induction script with
  | nil =>
    intro i messages c final _ h
    simp [run_agent_loop] at h
  | cons r rest ih =>
    intro i messages c final hinv h
    by_cases hr : r.tool_calls = []
    · simp only [run_agent_loop, if_pos hr] at h
      rw [RunResult.answer.injEq] at h
      obtain ⟨-, h2⟩ := h
      subst h2
      rw [resultIds_append, issuedIds_append, resultIds_assistant, issuedIds_assistant, hr]
      simp [hinv]
    · simp only [run_agent_loop, if_neg hr] at h
      cases hh : handleToolCalls impls parse r.tool_calls (messages ++ [assistantMessage r]) with
      | error em =>
        obtain ⟨e, ms⟩ := em
        simp only [hh] at h
        exact absurd h (by simp)
      | ok messages'' =>
        simp only [hh] at h
        obtain ⟨hres, hiss⟩ := handleToolCalls_ok_ids impls parse r.tool_calls
          (messages ++ [assistantMessage r]) messages'' hh
        refine ih (i + 1) messages'' c final ?_ h
        rw [hres, hiss, resultIds_append, issuedIds_append, resultIds_assistant,
          issuedIds_assistant]
        simp [hinv]

/-- Every span event a run emits belongs to the iteration that is current or
later: iteration numbering is monotone along the trace. -/
lemma run_agent_loop_events_ge (impls : String → Option (Args → Except String String))
    (parse : String → Option Args) :
    ∀ (script : List ModelResponse) (i : Nat) (messages : List Message) (ev : SpanEvent),
      ev ∈ (run_agent_loop impls parse i script messages).2 → i ≤ ev.iter := by
  intro script
  induction script with
  | nil =>
    intro i messages ev hev
    simp [run_agent_loop] at hev
  | cons r rest ih =>
    intro i messages ev hev
    by_cases hr : r.tool_calls = []
    · simp only [run_agent_loop, if_pos hr] at hev
      simp at hev
      rcases hev with rfl | rfl | rfl | rfl | rfl <;> simp [SpanEvent.iter]
    · simp only [run_agent_loop, if_neg hr] at hev
      cases hh : handleToolCalls impls parse r.tool_calls (messages ++ [assistantMessage r]) with
      | error em =>
        obtain ⟨e, ms⟩ := em
        simp only [hh] at hev
        simp at hev
        rcases hev with rfl | rfl | rfl | rfl <;> simp [SpanEvent.iter]
      | ok messages'' =>
        simp only [hh] at hev
        simp at hev
        rcases hev with rfl | rfl | rfl | rfl | rfl | hmem
        · simp [SpanEvent.iter]
        · simp [SpanEvent.iter]
        · simp [SpanEvent.iter]
        · simp [SpanEvent.iter]
        · simp [SpanEvent.iter]
        · exact Nat.le_of_succ_le (ih (i + 1) messages'' ev hmem)

/-- Open/close discipline of the `router_call` spans: on every run, each
iteration's span is opened at most once, closed exactly as many times as it
is opened, and its output is set at most once. -/
lemma run_agent_loop_span_counts (impls : String → Option (Args → Except String String))
    (parse : String → Option Args) :
    ∀ (script : List ModelResponse) (i : Nat) (messages : List Message) (j : Nat),
      ((run_agent_loop impls parse i script messages).2.count (SpanEvent.openSpan j)
        = (run_agent_loop impls parse i script messages).2.count (SpanEvent.closeSpan j)) ∧
      (run_agent_loop impls parse i script messages).2.count (SpanEvent.openSpan j) ≤ 1 ∧
      (run_agent_loop impls parse i script messages).2.count (SpanEvent.setOutput j) ≤ 1 := by
  intro script
  induction script with
  | nil =>
    intro i messages j
    simp [run_agent_loop]
  | cons r rest ih =>
    intro i messages j
    by_cases hr : r.tool_calls = []
    · simp only [run_agent_loop, if_pos hr]
      by_cases hj : j = i
      · subst hj; simp [List.count_cons]
      · simp [List.count_cons, hj]
    · simp only [run_agent_loop, if_neg hr]
      cases hh : handleToolCalls impls parse r.tool_calls (messages ++ [assistantMessage r]) with
      | error em =>
        obtain ⟨e, ms⟩ := em
        simp only [hh]
        by_cases hj : j = i
        · subst hj; simp [List.count_cons]
        · simp [List.count_cons, hj]
      | ok messages'' =>
        simp only [hh]
        obtain ⟨ihe, ih1, ih2⟩ := ih (i + 1) messages'' j
        have hz : ∀ ev : SpanEvent, ev.iter = i →
            (run_agent_loop impls parse (i + 1) rest messages'').2.count ev = 0 := by
          intro ev hev
          refine List.count_eq_zero_of_not_mem (fun hmem => ?_)
          have := run_agent_loop_events_ge impls parse rest (i + 1) messages'' ev hmem
          omega
        by_cases hj : j = i
        · subst hj
          have hzo := hz (SpanEvent.openSpan j) rfl
          have hzc := hz (SpanEvent.closeSpan j) rfl
          have hzs := hz (SpanEvent.setOutput j) rfl
          simp [List.count_append, List.count_cons, hzo, hzc, hzs]
        · simp [List.count_append, List.count_cons, hj]
          exact ⟨ihe, ih1, ih2⟩

/-- Whenever a run's trace closes span `j`, the trace decomposes around the
contiguous lifecycle block `open; set_input; set_status ok; close` of that
span, with no `set_output` for that span anywhere before the close. -/
lemma run_agent_loop_close_block (impls : String → Option (Args → Except String String))
    (parse : String → Option Args) :
    ∀ (script : List ModelResponse) (i : Nat) (messages : List Message) (j : Nat),
      SpanEvent.closeSpan j ∈ (run_agent_loop impls parse i script messages).2 →
      ∃ a b, (run_agent_loop impls parse i script messages).2
          = a ++ [SpanEvent.openSpan j, SpanEvent.setInput j,
                  SpanEvent.setStatusOk j, SpanEvent.closeSpan j] ++ b ∧
        SpanEvent.setOutput j ∉ a := by
  intro script
  induction script with
  | nil =>
    intro i messages j hmem
    simp [run_agent_loop] at hmem
  | cons r rest ih =>
    intro i messages j hmem
    by_cases hr : r.tool_calls = []
    · simp only [run_agent_loop, if_pos hr] at hmem ⊢
      by_cases hj : j = i
      · subst hj
        exact ⟨[], [SpanEvent.setOutput j], rfl, by simp⟩
      · simp [hj] at hmem
    · simp only [run_agent_loop, if_neg hr] at hmem ⊢
      cases hh : handleToolCalls impls parse r.tool_calls (messages ++ [assistantMessage r]) with
      | error em =>
        obtain ⟨e, ms⟩ := em
        simp only [hh] at hmem ⊢
        by_cases hj : j = i
        · subst hj
          exact ⟨[], [], rfl, by simp⟩
        · simp [hj] at hmem
      | ok messages'' =>
        simp only [hh] at hmem ⊢
        by_cases hj : j = i
        · subst hj
          refine ⟨[], [SpanEvent.setOutput j]
            ++ (run_agent_loop impls parse (j + 1) rest messages'').2, ?_, by simp⟩
          simp
        · have hmem' : SpanEvent.closeSpan j
              ∈ (run_agent_loop impls parse (i + 1) rest messages'').2 := by
            simp [hj] at hmem
            exact hmem
          obtain ⟨a, b, hab, hnotin⟩ := ih (i + 1) messages'' j hmem'
          refine ⟨[SpanEvent.openSpan i, SpanEvent.setInput i, SpanEvent.setStatusOk i,
            SpanEvent.closeSpan i, SpanEvent.setOutput i] ++ a, b, ?_, ?_⟩
          · simp only [hab]
            simp [List.append_assoc]
          · simp [hj, hnotin]

/-! ## Claim theorems -/

/-- Claim C5: when the visualization path's structured-output call fails to
parse (the `except` branch of `extract_chart_config`), the function does not
raise — it is total — and yields exactly the documented default configuration
`{chart_type: "line", x_axis: "date", y_axis: "value", title: <goal>}`
(together with the `data` passthrough field the code always adds). -/
theorem extract_chart_config_default (data visualization_goal : String) :
    extract_chart_config data visualization_goal none =
      { chart_type := "line", x_axis := "date", y_axis := "value",
        title := visualization_goal, data := data } := rfl

/-- Claim C8: the benchmark harness's dependency-install step runs at most one
install command, and that command is the one for the first file that exists
in the priority order requirements.txt, setup.py, pyproject.toml (refinement
against the spec-side `specFirstInstall`). -/
theorem installCommands_first_priority (repo : RepoState) :
    (installCommands repo).length ≤ 1 ∧ installCommands repo = specFirstInstall repo := by
  obtain ⟨r, s, p⟩ := repo
  cases r <;> cases s <;> cases p <;> exact ⟨by decide, by decide⟩

/-- Claim C9 (implicit): `analyze_sales_data` never returns an empty string —
when the model's message content is `None` or empty, the fixed string
`"No analysis could be generated"` is returned in its place. -/
theorem analyze_sales_data_nonempty :
    (∀ content, analyze_sales_data content ≠ "") ∧
    analyze_sales_data none = "No analysis could be generated" ∧
    analyze_sales_data (some "") = "No analysis could be generated" := by
  refine ⟨?_, rfl, by simp [analyze_sales_data]⟩
  intro content
  match content with
  | none => simp [analyze_sales_data]
  | some s =>
    by_cases hs : s = "" <;> simp [analyze_sales_data, hs]

/-- Witness for C9: the theorem applied at a concrete model content. -/
theorem analyze_sales_data_nonempty_witness :
    analyze_sales_data (some "Sales rose 4%.") ≠ "" :=
  analyze_sales_data_nonempty.1 (some "Sales rose 4%.")

/-- Claim C10 (implicit): on every input, `extract_chart_config` returns a
record with a fifth field `data` equal to the `data` argument unchanged, in
both the parsed-success branch and the fallback branch. -/
theorem extract_chart_config_data_passthrough
    (data visualization_goal : String) (parsed : Option VisualizationConfig) :
    (extract_chart_config data visualization_goal parsed).data = data := by
  cases parsed <;> rfl

/-- Claim C2, counterexample: the claim says that after normalization the
conversation *begins* with the fixed system prompt.  It does not: for the
bare-string input `"What were total sales last week?"` (the spec's own
end-to-end scenario) the code *appends* the system message, so the
conversation starts with the user message and ends with the system one. -/
theorem normalizeInput_not_begin_system :
    normalizeInput (Sum.inl "What were total sales last week?") =
      [userMessage "What were total sales last week?", systemMessage] ∧
    (normalizeInput (Sum.inl "What were total sales last week?")).head?.map Message.role
      = some "user" ∧
    ¬ (normalizeInput (Sum.inl "What were total sales last week?")).head?.map Message.role
      = some "system" := by
  refine ⟨rfl, rfl, ?_⟩
  intro h
  simp [normalizeInput, userMessage] at h

/-- Claim C2, amended: a bare string becomes a single user message and, since no
system message is present, the fixed system message is appended *at the end*;
after normalization the conversation contains exactly one system message and
*ends* with the fixed system prompt (it begins with the user message, not the
system prompt).  Likewise a message-list input with no system message gets
the system message appended at the end, yielding exactly one system
message. -/
theorem normalizeInput_appends_system :
    (∀ s : String,
      normalizeInput (Sum.inl s) = [userMessage s, systemMessage] ∧
      countSystem (normalizeInput (Sum.inl s)) = 1 ∧
      (normalizeInput (Sum.inl s)).getLast? = some systemMessage) ∧
    (∀ messages : List Message, (∀ m ∈ messages, m.role ≠ "system") →
      normalizeInput (Sum.inr messages) = messages ++ [systemMessage] ∧
      countSystem (normalizeInput (Sum.inr messages)) = 1 ∧
      (normalizeInput (Sum.inr messages)).getLast? = some systemMessage) := by
  constructor
  · intro s
    refine ⟨rfl, ?_, rfl⟩
    simp [normalizeInput, countSystem, userMessage, systemMessage]
  · intro messages h
    have hany : messages.any (fun m => m.role == "system") = false := by
      simp only [List.any_eq_false]
      intro m hm
      simpa using h m hm
    have hnorm : normalizeInput (Sum.inr messages) = messages ++ [systemMessage] := by
      simp [normalizeInput, hany]
    refine ⟨hnorm, ?_, ?_⟩
    · have hfilter : messages.filter (fun m => m.role == "system") = [] := by
        rw [List.filter_eq_nil_iff]
        intro m hm
        simpa using h m hm
      simp [countSystem, hnorm, List.filter_append, hfilter, systemMessage]
    · simp [hnorm]

/-- Witness for the amended C2: applied to a concrete two-message caller
conversation with no system message. -/
theorem normalizeInput_appends_system_witness :
    normalizeInput (Sum.inr [userMessage "hi", { role := "assistant", content := some "hello" }])
      = [userMessage "hi", { role := "assistant", content := some "hello" }, systemMessage] ∧
    countSystem (normalizeInput
      (Sum.inr [userMessage "hi", { role := "assistant", content := some "hello" }])) = 1 := by
  have h := normalizeInput_appends_system.2
    [userMessage "hi", { role := "assistant", content := some "hello" }]
    (by intro m hm; fin_cases hm <;> simp [userMessage])
  exact ⟨h.1, h.2.1⟩

/-- Claim C4: a tool call whose name is absent from `tool_implementations`
makes dispatch raise a lookup error that carries the conversation unchanged —
no message is appended for that call — and the same fatal treatment applies
when the argument payload does not parse as JSON; the error also propagates
out of the agent loop (the loop ends in `dispatchError`, with the
conversation exactly as it stood before the failing dispatch). -/
theorem dispatch_fatal_errors :
    (∀ impls parse (tc : ToolCall) rest messages, impls tc.name = none →
      handleToolCalls impls parse (tc :: rest) messages
        = .error (DispatchError.unknownTool tc.name, messages)) ∧
    (∀ impls parse (tc : ToolCall) rest messages f, impls tc.name = some f →
      parse tc.arguments = none →
      handleToolCalls impls parse (tc :: rest) messages
        = .error (DispatchError.badArgs tc.arguments, messages)) ∧
    (∀ impls parse i (r : ModelResponse) script messages tc tcs,
      r.tool_calls = tc :: tcs → impls tc.name = none →
      (run_agent_loop impls parse i (r :: script) messages).1
        = RunResult.dispatchError (DispatchError.unknownTool tc.name)
            (messages ++ [assistantMessage r])) := by
  refine ⟨?_, ?_, ?_⟩
  · intro impls parse tc rest messages h
    simp [handleToolCalls, h]
  · intro impls parse tc rest messages f hf hp
    simp [handleToolCalls, hf, hp]
  · intro impls parse i r script messages tc tcs hr h
    simp [run_agent_loop, hr, handleToolCalls, h]

/-- A scripted registry with no tools at all, for concrete runs. -/
def noImpls : String → Option (Args → Except String String) := fun _ => none

/-- A scripted `json.loads` that accepts every payload as the empty
key→value dict. -/
def parseAny : String → Option Args := fun _ => some []

/-- A scripted `json.loads` that rejects every payload. -/
def parseNone : String → Option Args := fun _ => none

/-- Witness for C4: a model response requesting the unknown tool
`transfer_funds` makes dispatch and the loop fail fatally, appending no tool
message; a registry hit with an unparsable payload fails the same way. -/
theorem dispatch_fatal_errors_witness :
    handleToolCalls noImpls parseAny [⟨"call_9", "transfer_funds", "{}"⟩] []
      = .error (DispatchError.unknownTool "transfer_funds", []) ∧
    handleToolCalls (tool_implementations (fun _ => .ok "") (fun _ => none) (fun _ => ""))
        parseNone [⟨"call_9", "lookup_sales_data", "not json"⟩] []
      = .error (DispatchError.badArgs "not json", []) ∧
    (run_agent_loop noImpls parseAny 0
        [⟨none, [⟨"call_9", "transfer_funds", "{}"⟩]⟩] []).1
      = RunResult.dispatchError (DispatchError.unknownTool "transfer_funds")
          [assistantMessage ⟨none, [⟨"call_9", "transfer_funds", "{}"⟩]⟩] := by
  refine ⟨?_, ?_, ?_⟩
  · exact dispatch_fatal_errors.1 noImpls parseAny ⟨"call_9", "transfer_funds", "{}"⟩ [] [] rfl
  · exact dispatch_fatal_errors.2.1
      (tool_implementations (fun _ => .ok "") (fun _ => none) (fun _ => ""))
      parseNone ⟨"call_9", "lookup_sales_data", "not json"⟩ [] []
      (fun a => .ok (lookup_sales_data ((fun _ => Except.ok "") a))) rfl rfl
  · exact dispatch_fatal_errors.2.2 noImpls parseAny 0
      ⟨none, [⟨"call_9", "transfer_funds", "{}"⟩]⟩ [] []
      ⟨"call_9", "transfer_funds", "{}"⟩ [] rfl rfl

/-- Claim C6: whenever any internal step of `lookup_sales_data` raises, the tool
returns normally with a string that begins with the error indicator
`"Error accessing data:"` instead of propagating the exception, and when the
agent loop dispatches such a call it appends exactly that string as the tool
message's content (dispatch succeeds — the conversation gains one tool
message whose content is the error string). -/
theorem lookup_sales_data_error_contained :
    (∀ e : String, lookup_sales_data (.error e) = "Error accessing data: " ++ e) ∧
    (∀ e : String, ∃ rest, lookup_sales_data (.error e) = "Error accessing data:" ++ rest) ∧
    (∀ (lookupInternal : Args → Except String String) analysisContent vizCode
        parse (tc : ToolCall) messages args e,
      tc.name = "lookup_sales_data" → parse tc.arguments = some args →
      lookupInternal args = .error e →
      handleToolCalls (tool_implementations lookupInternal analysisContent vizCode)
          parse [tc] messages
        = .ok (messages ++ [toolMessage tc ("Error accessing data: " ++ e)])) := by
  refine ⟨fun e => rfl, ?_, ?_⟩
  · intro e
    exact ⟨" " ++ e, by rw [← String.append_assoc]; rfl⟩
  · intro lookupInternal analysisContent vizCode parse tc messages args e hname hp hint
    simp [handleToolCalls, tool_implementations, hname, hp, hint, lookup_sales_data]

/-- Witness for C6: a concrete failing lookup (`database is locked`) yields a
tool message whose content is the error string, appended by dispatch. -/
theorem lookup_sales_data_error_contained_witness :
    handleToolCalls
        (tool_implementations (fun _ => .error "database is locked")
          (fun _ => none) (fun _ => ""))
        parseAny [⟨"call_1", "lookup_sales_data", "{}"⟩] []
      = .ok [toolMessage ⟨"call_1", "lookup_sales_data", "{}"⟩
          "Error accessing data: database is locked"] :=
  lookup_sales_data_error_contained.2.2
    (fun _ => .error "database is locked") (fun _ => none) (fun _ => "")
    parseAny ⟨"call_1", "lookup_sales_data", "{}"⟩ [] [] "database is locked"
    rfl rfl rfl

/-- A concrete lookup tool call, for witness runs. -/
def tcLookup : ToolCall := ⟨"call_1", "lookup_sales_data", "{}"⟩

/-- A concrete registry whose scripted externals always succeed. -/
def demoImpls : String → Option (Args → Except String String) :=
  tool_implementations (fun _ => .ok "42") (fun _ => some "fine") (fun _ => "code")

/-- A scripted model run: one lookup tool call, then a plain answer. -/
def demoScript : List ModelResponse :=
  [⟨none, [tcLookup]⟩, ⟨some "Total sales were 42.", []⟩]

/-- The normalized conversation for the spec's end-to-end scenario input. -/
def demoStart : List Message := normalizeInput (Sum.inl "What were total sales last week?")

/-- The conversation `demoScript` produces from `demoStart`. -/
def demoFinal : List Message :=
  demoStart ++ [assistantMessage ⟨none, [tcLookup]⟩, toolMessage tcLookup "42",
    assistantMessage ⟨some "Total sales were 42.", []⟩]

/-- Claim C1: the agent loop terminates exactly when the model returns a
response with an empty tool-call set, and returning that response's content
is the only termination path: a script in which every response carries at
least one tool call never produces an `answer` (however long it is), and for
any script whose first tool-call-free response is `r` (every earlier
response's calls dispatching successfully), the loop returns `r.content`. -/
theorem run_agent_terminates_iff_no_tool_calls :
    (∀ impls parse i script messages,
      (∀ r ∈ script, r.tool_calls ≠ []) →
      ∀ c final, (run_agent_loop impls parse i script messages).1
        ≠ RunResult.answer c final) ∧
    (∀ impls parse i (pre : List ModelResponse) (r : ModelResponse) rest messages,
      (∀ p ∈ pre, p.tool_calls ≠ []) →
      (∀ p ∈ pre, ∀ tc ∈ p.tool_calls, dispatchOk impls parse tc) →
      r.tool_calls = [] →
      ∃ final, (run_agent_loop impls parse i (pre ++ r :: rest) messages).1
        = RunResult.answer r.content final) :=
  ⟨fun impls parse i script messages h =>
      run_agent_loop_no_answer impls parse script i messages h,
   fun impls parse i pre r rest messages h1 h2 h3 =>
      run_agent_loop_answer_first impls parse pre r rest i messages h1 h2 h3⟩

/-- Witness for C1: a scripted model that keeps requesting tool calls is
never answered (here three iterations of lookups), and the two-step demo
script terminates with the content of its first tool-call-free response. -/
theorem run_agent_terminates_iff_no_tool_calls_witness :
    (∀ c final, (run_agent_loop demoImpls parseAny 0
        [⟨none, [tcLookup]⟩, ⟨none, [tcLookup]⟩, ⟨none, [tcLookup]⟩] []).1
      ≠ RunResult.answer c final) ∧
    (∃ final, (run_agent_loop demoImpls parseAny 0 demoScript demoStart).1
      = RunResult.answer (some "Total sales were 42.") final) := by
  constructor
  · exact run_agent_terminates_iff_no_tool_calls.1 demoImpls parseAny 0
      [⟨none, [tcLookup]⟩, ⟨none, [tcLookup]⟩, ⟨none, [tcLookup]⟩] []
      (by intro r hr; fin_cases hr <;> simp)
  · exact run_agent_terminates_iff_no_tool_calls.2 demoImpls parseAny 0
      [⟨none, [tcLookup]⟩] ⟨some "Total sales were 42.", []⟩ [] demoStart
      (by intro p hp; fin_cases hp; simp)
      (by intro p hp tc htc; fin_cases hp; fin_cases htc
          exact ⟨_, rfl, [], rfl, "42", rfl⟩)
      rfl

/-- Claim C3: `handle_tool_calls` executes a response's tool calls sequentially
in issue order, appending exactly one tool-role message per call in that same
order, each carrying the originating call's identifier; consequently, for a
completed agent-loop run starting from a conversation whose tool-result ids
already match its issued ids (e.g. a fresh one), the final conversation's
tool-result ids equal, in order, the assistant-issued tool-call ids — so when
the model issues pairwise-distinct ids, every tool-result message matches
exactly one issued request and no two tool results answer the same
request. -/
theorem tool_results_ordered_and_correlated :
    (∀ impls parse calls messages messages',
      handleToolCalls impls parse calls messages = .ok messages' →
      ∃ outs : List String, outs.length = calls.length ∧
        messages' = messages ++ (calls.zip outs).map (fun p => toolMessage p.1 p.2)) ∧
    (∀ impls parse script messages c final,
      resultIds messages = issuedIds messages →
      (run_agent_loop impls parse 0 script messages).1 = RunResult.answer c final →
      resultIds final = issuedIds final ∧
      ((issuedIds final).Nodup → ∀ idf ∈ resultIds final,
        (issuedIds final).count idf = 1 ∧ (resultIds final).count idf = 1)) := by
  constructor
  · exact handleToolCalls_ok_shape
  · intro impls parse script messages c final hinv h
    have heq := run_agent_loop_ids impls parse script 0 messages c final hinv h
    refine ⟨heq, fun hnd idf hidf => ?_⟩
    have h1 : (issuedIds final).count idf = 1 :=
      List.count_eq_one_of_mem hnd (heq ▸ hidf)
    exact ⟨h1, by rw [heq]; exact h1⟩

/-- Witness for C3: on the demo run, dispatching the lookup call appends
exactly one tool message (the zip decomposition), and the final conversation
has tool-result ids equal to the issued ids, each occurring exactly once. -/
theorem tool_results_ordered_and_correlated_witness :
    (∃ outs : List String, outs.length = [tcLookup].length ∧
      demoStart ++ [assistantMessage ⟨none, [tcLookup]⟩] ++ [toolMessage tcLookup "42"]
        = demoStart ++ [assistantMessage ⟨none, [tcLookup]⟩]
          ++ ([tcLookup].zip outs).map (fun p => toolMessage p.1 p.2)) ∧
    (resultIds demoFinal = issuedIds demoFinal ∧
      ((issuedIds demoFinal).Nodup → ∀ idf ∈ resultIds demoFinal,
        (issuedIds demoFinal).count idf = 1 ∧ (resultIds demoFinal).count idf = 1)) := by
  constructor
  · exact tool_results_ordered_and_correlated.1 demoImpls parseAny [tcLookup]
      (demoStart ++ [assistantMessage ⟨none, [tcLookup]⟩])
      (demoStart ++ [assistantMessage ⟨none, [tcLookup]⟩] ++ [toolMessage tcLookup "42"])
      (by rfl)
  · exact tool_results_ordered_and_correlated.2 demoImpls parseAny demoScript demoStart
      (some "Total sales were 42.") demoFinal (by decide) (by decide)

/-- Claim C7, counterexample: the claim says each `router_call` span's output
snapshot is set at close, immediately before normal return and *not after the
span has closed*.  In the source, `span.set_output(...)` (utils.py lines
225 and 227) sits outside the `with` block that closes the span (lines
213-222), so output is recorded only *after* the span has closed: on a
one-iteration run the trace is `open; set_input; set_status ok; close;
set_output`, with the only `set_output` strictly after the close. -/
theorem run_agent_set_output_after_close :
    (run_agent_loop noImpls parseAny 0 [⟨some "done", []⟩] []).2
      = [SpanEvent.openSpan 0, SpanEvent.setInput 0, SpanEvent.setStatusOk 0,
         SpanEvent.closeSpan 0, SpanEvent.setOutput 0] ∧
    (∃ a b, (run_agent_loop noImpls parseAny 0 [⟨some "done", []⟩] []).2
        = a ++ SpanEvent.closeSpan 0 :: b ∧
      SpanEvent.setOutput 0 ∈ b ∧ SpanEvent.setOutput 0 ∉ a) := by
  refine ⟨by decide, [SpanEvent.openSpan 0, SpanEvent.setInput 0, SpanEvent.setStatusOk 0],
    [SpanEvent.setOutput 0], by decide, by decide, by decide⟩

/-- Claim C7, amended: on every run of the agent loop, each iteration's
`router_call` span is opened at most once and closed exactly as many times as
it is opened (so every opened-and-exited span closes exactly once and is
never reopened), its output snapshot is set at most once, and whenever a span
closes the trace contains its contiguous lifecycle block
`open; set_input; set_status ok; close` — status is set to ok *before* the
close on every path — with no `set_output` for that span before the close:
the output snapshot, when recorded at all, is recorded only *after* the span
has closed (on both the tool-call and the final-answer branch), not at
close. -/
theorem run_agent_span_discipline :
    (∀ impls parse i script messages j,
      ((run_agent_loop impls parse i script messages).2.count (SpanEvent.openSpan j)
        = (run_agent_loop impls parse i script messages).2.count (SpanEvent.closeSpan j)) ∧
      (run_agent_loop impls parse i script messages).2.count (SpanEvent.openSpan j) ≤ 1 ∧
      (run_agent_loop impls parse i script messages).2.count (SpanEvent.setOutput j) ≤ 1) ∧
    (∀ impls parse i script messages j,
      SpanEvent.closeSpan j ∈ (run_agent_loop impls parse i script messages).2 →
      ∃ a b, (run_agent_loop impls parse i script messages).2
          = a ++ [SpanEvent.openSpan j, SpanEvent.setInput j,
                  SpanEvent.setStatusOk j, SpanEvent.closeSpan j] ++ b ∧
        SpanEvent.setOutput j ∉ a) :=
  ⟨fun impls parse i script messages j =>
      run_agent_loop_span_counts impls parse script i messages j,
   fun impls parse i script messages j h =>
      run_agent_loop_close_block impls parse script i messages j h⟩

/-- Witness for the amended C7: the span discipline evaluated on the concrete
two-iteration demo run, including the block decomposition around the first
iteration's close. -/
theorem run_agent_span_discipline_witness :
    ((run_agent_loop demoImpls parseAny 0 demoScript demoStart).2.count (SpanEvent.openSpan 0)
      = (run_agent_loop demoImpls parseAny 0 demoScript demoStart).2.count
          (SpanEvent.closeSpan 0)) ∧
    (∃ a b, (run_agent_loop demoImpls parseAny 0 demoScript demoStart).2
        = a ++ [SpanEvent.openSpan 0, SpanEvent.setInput 0,
                SpanEvent.setStatusOk 0, SpanEvent.closeSpan 0] ++ b ∧
      SpanEvent.setOutput 0 ∉ a) :=
  ⟨(run_agent_span_discipline.1 demoImpls parseAny 0 demoScript demoStart 0).1,
   run_agent_span_discipline.2 demoImpls parseAny 0 demoScript demoStart 0 (by decide)⟩

end AgenticSecurity
